import Mathlib

/-!
Verification of the food-waste dashboard (app.py) against its specification.

The script is embedded shallowly:

* a pandas `DataFrame` row becomes a `Row`; a frame is a list of index-labelled
  rows (`Frame`), the label being the original `RangeIndex` position assigned by
  `read_csv`;
* `pd.to_numeric(..., errors="coerce")` is an arbitrary total function
  `String → Option ℚ` (a cell that fails to parse becomes `none`, never an
  exception); a missing cell is already `none`;
* `sort_values` is modelled after pandas `nargsort`: an ascending argsort over
  the key column with the original position as tie key (numpy's argsort is
  stable at the array sizes at hand), reversed wholesale when `ascending=False`;
* floating-point arithmetic is replaced by exact rationals, and the
  floating-point square root inside `StandardScaler` by a fixed-precision
  rational approximation (no claim below depends on the numeric values of the
  scaled features);
* `sklearn.cluster.KMeans` is modelled by an executable Lloyd-style algorithm
  with `n_init` seeded restarts keeping the lowest-inertia run.  A call with
  `random_state=None` would draw fresh entropy on every invocation; that
  entropy is made explicit as an extra argument, and `random_state=some s`
  ignores it, which is exactly what the determinism claims are about.
-/

namespace FoodWaste

/-- One raw CSV row: the country cell and the four waste-estimate cells as read
by `read_csv` (a missing cell is `none`, a present cell is its text). -/
structure RawRow where
  country : Option String
  combined : Option String
  household : Option String
  retail : Option String
  foodService : Option String
deriving Repr, DecidableEq

/-- One row of the frame after the numeric coercion of app.py lines 41-42:
the four waste-estimate columns hold `Option ℚ` (`none` is pandas `NaN`). -/
structure Row where
  country : Option String
  combined : Option ℚ
  household : Option ℚ
  retail : Option ℚ
  foodService : Option ℚ
deriving Repr, DecidableEq

/-- A DataFrame: rows labelled with their original `RangeIndex` position. -/
abbrev Frame := List (Nat × Row)

/-- Coercion of one cell, app.py line 42: `pd.to_numeric(c, errors="coerce")`.
A missing cell stays missing; a present cell goes through the parse function
`toNum`, which returns `none` instead of raising when the text is not numeric. -/
def coerceCell (toNum : String → Option ℚ) : Option String → Option ℚ
  | none => none
  | some s => toNum s

/-- Numeric coercion of the four waste-estimate columns of one row
(app.py lines 34-42); the `Country` column is not coerced. -/
def coerceRow (toNum : String → Option ℚ) (r : RawRow) : Row :=
  { country := r.country
    combined := coerceCell toNum r.combined
    household := coerceCell toNum r.household
    retail := coerceCell toNum r.retail
    foodService := coerceCell toNum r.foodService }

/-- Cleaning body of `load_data` (app.py lines 34-46): coerce the four numeric
columns cell by cell, then `dropna(subset=["Country", "combined ..."])`, i.e.
keep exactly the rows whose country cell and combined-estimate cell are
non-null.  Row labels are the `RangeIndex` positions from `read_csv`
(`dropna` keeps labels, it does not renumber). -/
def cleanRows (toNum : String → Option ℚ) (rows : List RawRow) : Frame :=
  ((rows.map (coerceRow toNum)).enum).filter
    (fun p => p.2.country.isSome && p.2.combined.isSome)

/-- Result of `load_data` (app.py lines 20-46): whether `st.error` was shown,
and the returned frame. -/
structure LoadOutcome where
  errorShown : Bool
  df : Frame
deriving Repr, DecidableEq

/-- App.py lines 20-46.  The file system is `Option (List RawRow)`: `none`
means `read_csv` raises `FileNotFoundError`, in which case `st.error` is shown
and an empty frame is returned; otherwise the parsed rows are cleaned. -/
def load_data (toNum : String → Option ℚ) (file : Option (List RawRow)) : LoadOutcome :=
  match file with
  | none => { errorShown := true, df := [] }
  | some rows => { errorShown := false, df := cleanRows toNum rows }

/-- App.py lines 50-54: load, then `if df.empty: st.stop()`.  The result is
`none` when the script halts, `some df` when it proceeds with the cleaned
frame. -/
def appMain (toNum : String → Option ℚ) (file : Option (List RawRow)) : Option Frame :=
  let out := load_data toNum file
  if out.df.isEmpty then none else some out.df

/-- Sort key of lines 95 and 109: the combined-figures column.  On any cleaned
frame the column is non-null, so the default is never exercised. -/
def combinedOf (p : Nat × Row) : ℚ :=
  p.2.combined.getD 0

/-- Ascending comparison realised by the argsort inside pandas `nargsort`:
combined value first, original row position as tie key (numpy's argsort is
stable on the array sizes at hand, so equal keys keep their positions). -/
def argsortRel (a b : Nat × Row) : Prop :=
  combinedOf a < combinedOf b ∨ (combinedOf a = combinedOf b ∧ a.1 ≤ b.1)

instance : DecidableRel argsortRel := fun a b =>
  inferInstanceAs (Decidable (combinedOf a < combinedOf b ∨
    (combinedOf a = combinedOf b ∧ a.1 ≤ b.1)))

instance : IsTotal (Nat × Row) argsortRel := by
  constructor
  intro a b
  rcases lt_trichotomy (combinedOf a) (combinedOf b) with h | h | h
  · exact Or.inl (Or.inl h)
  · rcases Nat.le_total a.1 b.1 with hn | hn
    · exact Or.inl (Or.inr ⟨h, hn⟩)
    · exact Or.inr (Or.inr ⟨h.symm, hn⟩)
  · exact Or.inr (Or.inl h)

instance : IsTrans (Nat × Row) argsortRel := by
  constructor
  intro a b c hab hbc
  rcases hab with hab | ⟨hab, hab2⟩
  · rcases hbc with hbc | ⟨hbc, _⟩
    · exact Or.inl (hab.trans hbc)
    · exact Or.inl (hbc ▸ hab)
  · rcases hbc with hbc | ⟨hbc, hbc2⟩
    · exact Or.inl (hab ▸ hbc)
    · exact Or.inr ⟨hab.trans hbc, hab2.trans hbc2⟩

/-- Descending comparison realised by pandas `nargsort` when `ascending=False`:
`nargsort` reverses the values and their indices, runs the stable ascending
argsort on the reversed array, and reverses the resulting indexer once more
(pandas GH#6399).  The two reversals cancel inside every group of tied keys,
so the net order is combined value descending with tied rows kept in original
row position order — with the row label standing for list position (labels
increase along every frame the script builds), that net order is this
lexicographic comparison. -/
def argsortRelDesc (a b : Nat × Row) : Prop :=
  combinedOf b < combinedOf a ∨ (combinedOf a = combinedOf b ∧ a.1 ≤ b.1)

instance : DecidableRel argsortRelDesc := fun a b =>
  inferInstanceAs (Decidable (combinedOf b < combinedOf a ∨
    (combinedOf a = combinedOf b ∧ a.1 ≤ b.1)))

instance : IsTotal (Nat × Row) argsortRelDesc := by
  constructor
  intro a b
  rcases lt_trichotomy (combinedOf a) (combinedOf b) with h | h | h
  · exact Or.inr (Or.inl h)
  · rcases Nat.le_total a.1 b.1 with hn | hn
    · exact Or.inl (Or.inr ⟨h, hn⟩)
    · exact Or.inr (Or.inr ⟨h.symm, hn⟩)
  · exact Or.inl (Or.inl h)

instance : IsTrans (Nat × Row) argsortRelDesc := by
  constructor
  intro a b c hab hbc
  rcases hab with hab | ⟨hab, hab2⟩
  · rcases hbc with hbc | ⟨hbc, _⟩
    · exact Or.inl (hbc.trans hab)
    · exact Or.inl (by rw [← hbc]; exact hab)
  · rcases hbc with hbc | ⟨hbc, hbc2⟩
    · exact Or.inl (by rw [hab]; exact hbc)
    · exact Or.inr ⟨hab.trans hbc, hab2.trans hbc2⟩

/-- Pandas `df.sort_values(by="combined figures (kg/capita/year)", ascending=b)`
as used on lines 95 and 109, modelled after `nargsort`: a stable ascending
argsort for `ascending=True`; for `ascending=False` the array and its indices
are reversed, stably argsorted ascending, and the indexer reversed again, the
net effect being the descending order with ties in original position order
(see `argsortRelDesc`). -/
def sort_values (ascending : Bool) (df : Frame) : Frame :=
  if ascending then List.insertionSort argsortRel df
  else List.insertionSort argsortRelDesc df

/-- App.py line 95: `df.sort_values(by=..., ascending=False).head(10)`. -/
def top_10_waste (df : Frame) : Frame :=
  (sort_values false df).take 10

/-- App.py line 109: `df.sort_values(by=..., ascending=True).head(10)`. -/
def bottom_10_waste (df : Frame) : Frame :=
  (sort_values true df).take 10

/-- App.py line 131: `df[df["Country"] == selected_country].iloc[0]` — the
first row whose country cell equals the selected name (string equality is
exact and case-sensitive).  `iloc[0]` on an empty selection raises; that
partiality is the `none` case. -/
def country_data (df : Frame) (name : String) : Option (Nat × Row) :=
  (df.filter (fun p => p.2.country == some name)).head?

/-- App.py lines 132-139: the three (sector, value) pairs of one row. -/
def sectorPairs (r : Row) : List (String × Option ℚ) :=
  [("Household", r.household), ("Retail", r.retail), ("Food Service", r.foodService)]

/-- App.py line 140: `pd.DataFrame(sector_data).dropna()` — keep exactly the
pairs whose value is non-null (the sector name is never null). -/
def sector_df (r : Row) : List (String × Option ℚ) :=
  (sectorPairs r).filter (fun p => p.2.isSome)

/-- What the country-breakdown section renders (app.py lines 142-152): a pie
chart when some sector data survived `dropna`, a warning otherwise. -/
inductive SectorView
  | pieChart (rows : List (String × Option ℚ))
  | noDataWarning (country : String)
deriving Repr, DecidableEq

/-- App.py lines 130-152: look the selected country up, then either draw the
pie chart or show the no-data warning. -/
def renderSector (df : Frame) (name : String) : Option SectorView :=
  (country_data df name).map (fun p =>
    let s := sector_df p.2
    if s.isEmpty then SectorView.noDataWarning name else SectorView.pieChart s)

/-- The household column of `df[features]` (app.py lines 160-161). -/
def colHousehold (df : Frame) : List (Option ℚ) :=
  df.map (fun p => p.2.household)

/-- The retail column of `df[features]` (app.py lines 160-161). -/
def colRetail (df : Frame) : List (Option ℚ) :=
  df.map (fun p => p.2.retail)

/-- The food-service column of `df[features]` (app.py lines 160-161). -/
def colFoodService (df : Frame) : List (Option ℚ) :=
  df.map (fun p => p.2.foodService)

/-- App.py line 161: `cluster_data = df[features].copy()` — a detached copy of
the three sector columns; writing to it never reaches `df`. -/
def cluster_data (df : Frame) :
    List (Option ℚ) × List (Option ℚ) × List (Option ℚ) :=
  (colHousehold df, colRetail df, colFoodService df)

/-- Ascending sort of a list of rationals. -/
def sortedRats (xs : List ℚ) : List ℚ :=
  List.insertionSort (fun a b => a ≤ b) xs

/-- Median of a nonempty list of rationals as the spec describes it: the middle
element of the sorted values, or the mean of the two middle elements. -/
def medianSpec (xs : List ℚ) : ℚ :=
  let vs := sortedRats xs
  if vs.length % 2 = 1 then vs.getD (vs.length / 2) 0
  else (vs.getD (vs.length / 2 - 1) 0 + vs.getD (vs.length / 2) 0) / 2

/-- Pandas `Series.median()` (app.py line 165): null cells are skipped; if no
value remains the median is `NaN` (`none`). -/
def seriesMedian (xs : List (Option ℚ)) : Option ℚ :=
  let vs := xs.filterMap id
  if vs.length = 0 then none else some (medianSpec vs)

/-- Pandas `Series.fillna(v, inplace=True)` (app.py line 166): every null cell
becomes `v`; filling with `NaN` (`none`) leaves the column unchanged. -/
def fillna (xs : List (Option ℚ)) : Option ℚ → List (Option ℚ)
  | none => xs
  | some v => xs.map (fun c => some (c.getD v))

/-- App.py lines 164-166 for one feature column: compute the column's median
and fill the nulls with it. -/
def imputeCol (xs : List (Option ℚ)) : List (Option ℚ) :=
  fillna xs (seriesMedian xs)

/-- App.py lines 164-166: `cluster_data` after the per-feature imputation loop
(each feature handled independently). -/
def imputedData (df : Frame) :
    List (Option ℚ) × List (Option ℚ) × List (Option ℚ) :=
  (imputeCol (colHousehold df), imputeCol (colRetail df), imputeCol (colFoodService df))

/-- Sum of a list of rationals. -/
def listSum (xs : List ℚ) : ℚ :=
  xs.foldr (fun a b => a + b) 0

/-- Arithmetic mean (0 on the empty list, which never occurs downstream). -/
def meanRat (xs : List ℚ) : ℚ :=
  listSum xs / (xs.length : ℚ)

/-- Population variance, `ddof = 0`, as `StandardScaler` computes it. -/
def popVar (xs : List ℚ) : ℚ :=
  listSum (xs.map (fun x => (x - meanRat xs) ^ 2)) / (xs.length : ℚ)

/-- Fixed-precision rational stand-in for the floating-point square root used
inside `StandardScaler`; exact numeric agreement with the float result is not
needed by any claim. -/
def ratSqrt (q : ℚ) : ℚ :=
  if q ≤ 0 then 0
  else ((Nat.sqrt (q.num.toNat * 10 ^ 12 / q.den) : ℚ) / 10 ^ 6)

/-- `StandardScaler` on one feature column (app.py lines 169-170): the mean
and population standard deviation are fitted over the non-null cells (the
scaler disregards `NaN` when fitting and keeps it in the output), every
non-null cell is centred and divided by the deviation, and a constant column
(zero variance) is only centred, the scale being set to 1.  A cell still null
after imputation (a wholly-null feature) stays null here. -/
def scaleColOpt (xs : List (Option ℚ)) : List (Option ℚ) :=
  let vs := xs.filterMap id
  let m := meanRat vs
  let sd := ratSqrt (popVar vs)
  let sd2 := if sd = 0 then 1 else sd
  xs.map (fun c => c.map (fun x => (x - m) / sd2))

/-- A feature vector: (household, retail, food service). -/
abbrev Point := ℚ × ℚ × ℚ

/-- A feature vector that may still contain nulls after imputation (a feature
whose column was entirely null). -/
abbrev PointOpt := Option ℚ × Option ℚ × Option ℚ

/-- App.py line 170: `scaled_data = scaler.fit_transform(cluster_data)`, rows
reassembled as (possibly still null) points. -/
def scaled_data (df : Frame) : List PointOpt :=
  let im := imputedData df
  (scaleColOpt im.1).zip ((scaleColOpt im.2.1).zip (scaleColOpt im.2.2))

/-- Squared euclidean distance between feature vectors. -/
def sqDist (p q : Point) : ℚ :=
  (p.1 - q.1) ^ 2 + (p.2.1 - q.2.1) ^ 2 + (p.2.2 - q.2.2) ^ 2

/-- Scan of the remaining centroids keeping the best (index, distance) so far;
`i` is the index of the head of the remaining list. -/
def nearestFrom (p : Point) : List Point → Nat → Nat × ℚ → Nat × ℚ
  | [], _, acc => acc
  | c :: rest, i, acc =>
      if sqDist p c < acc.2 then nearestFrom p rest (i + 1) (i, sqDist p c)
      else nearestFrom p rest (i + 1) acc

/-- Index of the nearest centroid (first of the ties). -/
def nearest (cents : List Point) (p : Point) : Nat :=
  match cents with
  | [] => 0
  | c :: rest => (nearestFrom p rest 1 (0, sqDist p c)).1

/-- Mean of a list of points, component-wise. -/
def meanPoint (ps : List Point) : Point :=
  (meanRat (ps.map (fun p => p.1)),
   meanRat (ps.map (fun p => p.2.1)),
   meanRat (ps.map (fun p => p.2.2)))

/-- One Lloyd update: every centroid moves to the mean of the points assigned
to it (a centroid with no point keeps its position). -/
def updateCents (pts : List Point) (cents : List Point) : List Point :=
  cents.enum.map (fun jc =>
    let assigned := pts.filter (fun p => nearest cents p == jc.1)
    if assigned.isEmpty then jc.2 else meanPoint assigned)

/-- Lloyd iteration with fuel (the library's `max_iter`), stopping early at a
fixed point. -/
def lloyd (pts : List Point) : Nat → List Point → List Point
  | 0, cents => cents
  | fuel + 1, cents =>
      let c2 := updateCents pts cents
      if c2 = cents then cents else lloyd pts fuel c2

/-- Within-cluster sum of squared distances of a centroid set. -/
def inertia (pts cents : List Point) : ℚ :=
  listSum (pts.map (fun p => sqDist p (cents.getD (nearest cents p) (0, 0, 0))))

/-- Step of the deterministic pseudo-random stream seeding the restarts. -/
def lcg (s : Nat) : Nat :=
  (6364136223846793005 * s + 1442695040888963407) % 2 ^ 64

/-- The n-th draw of the stream started at `seed`. -/
def lcgStream (seed : Nat) : Nat → Nat
  | 0 => lcg seed
  | n + 1 => lcg (lcgStream seed n)

/-- Seeded choice of `k` initial centroids among the points. -/
def initCents (seed k : Nat) (pts : List Point) : List Point :=
  (List.range k).map (fun j => pts.getD (lcgStream seed j % pts.length) (0, 0, 0))

/-- One full k-means run from one seeded initialisation (`max_iter = 300`,
sklearn's default). -/
def singleRun (seed k : Nat) (pts : List Point) : List Point :=
  lloyd pts 300 (initCents seed k pts)

/-- Deterministic model of `sklearn.cluster.KMeans(n_clusters=k, n_init=nInit)`
fitted with seed `seed`: `nInit` seeded restarts, keeping the centroid set of
lowest inertia, then labelling every point by its nearest centroid. -/
def kmeansLabels (k nInit seed : Nat) (pts : List Point) : List Nat :=
  let runs := (List.range nInit).map (fun t => singleRun (seed + t) k pts)
  let best := runs.foldl (fun b c => if inertia pts c < inertia pts b then c else b)
    (initCents seed k pts)
  pts.map (fun p => nearest best p)

/-- Validation sklearn performs on the matrix handed to `fit`: an input that
still contains `NaN` raises, aborting the run with no labels produced — which
happens exactly when a wholly-null sector column survived imputation
unfilled.  `none` is that exception; otherwise the checked values pass
through. -/
def checkArray (pts : List PointOpt) : Option (List Point) :=
  if pts.all (fun p => p.1.isSome && p.2.1.isSome && p.2.2.isSome)
  then some (pts.map (fun p => (p.1.getD 0, p.2.1.getD 0, p.2.2.getD 0)))
  else none

/-- The `KMeans(n_clusters, random_state, n_init)` constructor plus `fit`
(app.py lines 173-174): validate the matrix (`none` is the `NaN` exception),
then run the seeded restarts.  `random_state=None` would draw fresh `entropy`
on every call; `random_state=some s` fixes the seed and ignores the entropy. -/
def kmeansFit (nClusters : Nat) (randomState : Option Nat) (nInit : Nat)
    (entropy : Nat) (pts : List PointOpt) : Option (List Nat) :=
  (checkArray pts).map (fun ps => kmeansLabels nClusters nInit (randomState.getD entropy) ps)

/-- App.py lines 173-174: `KMeans(n_clusters=3, random_state=42, n_init=10)`
fitted on the scaled data; `entropy` is the ambient randomness an unseeded run
would consume; `none` means the fit raised on a `NaN` matrix. -/
def clusterLabels (entropy : Nat) (df : Frame) : Option (List Nat) :=
  kmeansFit 3 (some 42) 10 entropy (scaled_data df)

/-- App.py lines 177-178: `plot_df = df.copy(); plot_df["Cluster"] = labels` —
each row paired with its cluster label (nothing when the fit raised). -/
def plot_df (entropy : Nat) (df : Frame) : Option (List ((Nat × Row) × Nat)) :=
  (clusterLabels entropy df).map (fun ls => df.zip ls)

/-- The mapping country ↦ cluster id read off `plot_df` (nothing when the fit
raised). -/
def clusterAssignment (entropy : Nat) (df : Frame) : Option (List (Option String × Nat)) :=
  (clusterLabels entropy df).map (fun ls => (df.map (fun p => p.2.country)).zip ls)

/-- Everything the script renders after a successful load. -/
structure RenderOutputs where
  mapSeries : List (Option String × Option ℚ)
  topTen : Frame
  bottomTen : Frame
  sectorView : Option SectorView
  clusterPlot : Option (List (Option String × Nat))
deriving Repr, DecidableEq

/-- App.py lines 50-190 after the load: the script body threading the shared
frame `df` through every section, each section yielding its render data and
leaving the frame as the source leaves it.  `sort_values` (lines 95, 109)
returns a fresh frame (`inplace` not set); the selection of line 131 is a
read; `cluster_data` (line 161) is a `.copy()`, so the in-place `fillna` of
line 166 writes to that scratch copy; `plot_df` (line 177) is another copy
that receives the new `Cluster` column. -/
def renderApp (entropy : Nat) (selected : String) (df : Frame) :
    RenderOutputs × Frame :=
  let mapSeries := df.map (fun p => (p.2.country, p.2.combined))
  let topTen := top_10_waste df
  let bottomTen := bottom_10_waste df
  let sectorView := renderSector df selected
  let scratch := cluster_data df
  let scratch2 := (imputeCol scratch.1, imputeCol scratch.2.1, imputeCol scratch.2.2)
  let scaled := (scaleColOpt scratch2.1).zip
    ((scaleColOpt scratch2.2.1).zip (scaleColOpt scratch2.2.2))
  let labels := kmeansFit 3 (some 42) 10 entropy scaled
  let clusterPlot := labels.map (fun ls => (df.map (fun p => p.2.country)).zip ls)
  ({ mapSeries := mapSeries, topTen := topTen, bottomTen := bottomTen,
     sectorView := sectorView, clusterPlot := clusterPlot }, df)

/-- Accumulating decimal parser over the characters of a cell. -/
def parseDigitsAux : List Char → Nat → Option Nat
  | [], acc => some acc
  | c :: cs, acc =>
      if c.isDigit then parseDigitsAux cs (acc * 10 + (c.toNat - 48)) else none

/-- A concrete cell parser standing in for `pd.to_numeric`: nonempty decimal
digit strings parse, anything else coerces to null. -/
def toNumTest (s : String) : Option ℚ :=
  match s.data with
  | [] => none
  | cs => (parseDigitsAux cs 0).map (fun n => (n : ℚ))

/-- First of two rows tied on the combined estimate. -/
def rowT0 : Row :=
  { country := some "T0", combined := some 5, household := some 1,
    retail := some 1, foodService := some 1 }

/-- Row A of the worked example in the spec (section 8, property 7). -/
def rowA : Row :=
  { country := some "A", combined := some 100, household := some 50,
    retail := some 30, foodService := some 20 }

/-- Row B of the worked example in the spec (section 8, property 7). -/
def rowB : Row :=
  { country := some "B", combined := some 200, household := none,
    retail := some 100, foodService := some 100 }

/-- The two-row cleaned frame of the worked example in the spec. -/
def dfAB : Frame :=
  [(0, rowA), (1, rowB)]

/-- A raw row whose combined-estimate cell is non-numeric text: the row is
dropped by the cleaning step. -/
def badRaw : RawRow :=
  { country := some "Atlantis", combined := some "notanumber",
    household := none, retail := none, foodService := none }

/-- A row with all three sector estimates null. -/
def rowNoSector : Row :=
  { country := some "N", combined := some 1, household := none,
    retail := none, foodService := none }

/-- A one-row cleaned frame whose only country has no sector data. -/
def dfNoSector : Frame :=
  [(0, rowNoSector)]

/-- A cleaned frame of 21 rows with pairwise distinct combined estimates. -/
def df21 : Frame :=
  (List.range 21).map (fun i =>
    (i, { country := some "c", combined := some (i : ℚ), household := none,
          retail := none, foodService := none }))

/-- First of two rows sharing the country name France. -/
def franceRow0 : Row :=
  { country := some "France", combined := some 80, household := some 33,
    retail := some 9, foodService := some 26 }

/-- Second of two rows sharing the country name France. -/
def franceRow1 : Row :=
  { country := some "France", combined := some 90, household := some 40,
    retail := some 10, foodService := some 30 }

/-- A cleaned frame in which two rows share the same country name. -/
def dfDup : Frame :=
  [(0, franceRow0), (1, franceRow1)]

/-- A three-row cleaned frame with pairwise distinct country names. -/
def df3 : Frame :=
  [(0, rowA), (1, rowB), (2, rowT0)]

/-- A row tied with twenty others on the combined estimate. -/
def tieRow : Row :=
  { country := some "t", combined := some 5, household := none,
    retail := none, foodService := none }

/-- A cleaned frame of 21 rows all tied on the combined estimate. -/
def dfTie21 : Frame :=
  (List.range 21).map (fun i => (i, tieRow))

/-- C1: for every input table, a row appears in the cleaned dataset produced by
load if and only if, after per-cell numeric coercion of the four waste-estimate
columns (an unparseable cell becomes null without raising — the parse function
is total into `Option`), both its country field and its combined-estimate field
are non-null. -/
theorem c1_cleaned_membership (toNum : String → Option ℚ) (rows : List RawRow)
    (i : Nat) (r : Row) :
    (i, r) ∈ (load_data toNum (some rows)).df ↔
      ((rows.map (coerceRow toNum)).get? i = some r ∧
        r.country ≠ none ∧ r.combined ≠ none) := by
  simp only [load_data, cleanRows, List.mem_filter, List.mk_mem_enum_iff_get?,
    Bool.and_eq_true, Option.isSome_iff_ne_none]

/-- C4: the clustering pipeline of the script is deterministic in the cleaned
dataset: because the source fixes `random_state=42`, the ambient entropy two
separate invocations would draw is ignored, so both produce identical labels
and identical country-to-cluster assignments. -/
theorem c4_cluster_deterministic (e1 e2 : Nat) (df : Frame) :
    clusterLabels e1 df = clusterLabels e2 df ∧
    clusterAssignment e1 df = clusterAssignment e2 df :=
  ⟨rfl, rfl⟩

/-- C10: no downstream view mutates the cleaned dataset: threading the shared
frame through the whole script body (map, rankings, sector breakdown,
clustering) returns it unchanged, every record equal before and after. -/
theorem c10_views_preserve_frame (entropy : Nat) (selected : String) (df : Frame) :
    (renderApp entropy selected df).2 = df :=
  rfl

/-- C5 counterexample: a file that exists and is read successfully, but whose
single row has a non-numeric combined estimate, also makes the script halt
(`st.stop()` fires on the empty cleaned frame) — so a missing/unreadable file
is not the only fatal condition, contrary to the claim. -/
theorem c5_counterexample :
    (some [badRaw] : Option (List RawRow)) ≠ none ∧
    appMain toNumTest (some [badRaw]) = none :=
  ⟨by simp, by decide⟩

/-- C5 amended: when the file is missing, load shows the error, produces no
cleaned dataset, and the caller halts; however the caller halts exactly when
the cleaned dataset is empty, which also happens for a readable file all of
whose rows are dropped — file absence is not the only fatal condition. -/
theorem c5_amended (toNum : String → Option ℚ) (file : Option (List RawRow)) :
    (file = none →
      (load_data toNum file).errorShown = true ∧ (load_data toNum file).df = [] ∧
      appMain toNum file = none) ∧
    (appMain toNum file = none ↔ (load_data toNum file).df = []) := by
  refine ⟨?_, ?_⟩
  · rintro rfl
    exact ⟨rfl, rfl, rfl⟩
  · simp only [appMain]
    rcases h : (load_data toNum file).df with _ | ⟨a, t⟩ <;> simp [h]

/-- C5 witness: the amended statement applied to the missing file, the
antecedent discharged. -/
theorem c5_witness :
    (load_data toNumTest none).errorShown = true ∧ (load_data toNumTest none).df = [] ∧
    appMain toNumTest none = none :=
  (c5_amended toNumTest none).1 rfl

/-- Two frames with the same rows, no repeated row label, both sorted under
the descending comparison, coincide. -/
theorem sorted_perm_eq :
    ∀ (l1 l2 : Frame), l1.Perm l2 → (l1.map Prod.fst).Nodup →
      l1.Pairwise argsortRelDesc → l2.Pairwise argsortRelDesc → l1 = l2 := by
  intro l1
  induction l1 with
  | nil =>
      intro l2 hperm _ _ _
      exact (hperm.symm.eq_nil).symm
  | cons a t ih =>
      intro l2 hperm hnd h1 h2
      have ha2 : a ∈ l2 := hperm.subset (List.mem_cons_self a t)
      cases l2 with
      | nil => cases ha2
      | cons b t2 =>
          by_cases hab : a = b
          · subst hab
            have hperm2 : t.Perm t2 := hperm.cons_inv
            have ht : t = t2 := ih t2 hperm2 (List.nodup_cons.mp hnd).2
              (List.pairwise_cons.mp h1).2 (List.pairwise_cons.mp h2).2
            rw [ht]
          · exfalso
            have hat2 : a ∈ t2 := by
              rcases List.mem_cons.mp ha2 with h | h
              · exact absurd h hab
              · exact h
            have hbt : b ∈ t := by
              have hb1 : b ∈ a :: t := hperm.symm.subset (List.mem_cons_self b t2)
              rcases List.mem_cons.mp hb1 with h | h
              · exact absurd h.symm hab
              · exact h
            have hrab : argsortRelDesc a b := (List.pairwise_cons.mp h1).1 b hbt
            have hrba : argsortRelDesc b a := (List.pairwise_cons.mp h2).1 a hat2
            rcases hrab with hr1 | ⟨hr1, hr1b⟩ <;> rcases hrba with hr2 | ⟨hr2, hr2b⟩
            · exact absurd (hr1.trans hr2) (lt_irrefl _)
            · exact absurd hr2 (ne_of_lt hr1)
            · exact absurd hr1 (ne_of_lt hr2)
            · have hlab : a.1 = b.1 := le_antisymm hr1b hr2b
              have hmem : a.1 ∈ t.map Prod.fst := by
                rw [hlab]
                exact List.mem_map_of_mem _ hbt
              exact (List.nodup_cons.mp hnd).1 hmem

/-- With pairwise distinct combined estimates the descending sort equals the
reverse of the ascending sort. -/
theorem sortDesc_eq_reverse_sortAsc (df : Frame)
    (hidx : df.Pairwise (fun a b => a.1 < b.1))
    (hdist : (df.map combinedOf).Nodup) :
    List.insertionSort argsortRelDesc df = (List.insertionSort argsortRel df).reverse := by
  have hpermD : (List.insertionSort argsortRelDesc df).Perm df :=
    List.perm_insertionSort argsortRelDesc df
  have hpermA : (List.insertionSort argsortRel df).Perm df :=
    List.perm_insertionSort argsortRel df
  have hpermR : (List.insertionSort argsortRel df).reverse.Perm df :=
    (List.reverse_perm _).trans hpermA
  have hcombne : df.Pairwise (fun a b => combinedOf a ≠ combinedOf b) :=
    List.pairwise_map.mp hdist
  have hcombne2 : (List.insertionSort argsortRel df).reverse.Pairwise
      (fun a b => combinedOf a ≠ combinedOf b) :=
    (hpermR.pairwise_iff (fun h => Ne.symm h)).mpr hcombne
  have hrevsorted : (List.insertionSort argsortRel df).reverse.Pairwise
      (fun a b => argsortRel b a) :=
    List.pairwise_reverse.mpr (List.sorted_insertionSort argsortRel df)
  have hrevdesc : (List.insertionSort argsortRel df).reverse.Pairwise argsortRelDesc := by
    refine (hrevsorted.and hcombne2).imp ?_
    intro a b hab
    rcases hab with ⟨hr | ⟨heq, _⟩, hne⟩
    · exact Or.inl hr
    · exact absurd heq.symm hne
  have hndlab : ((List.insertionSort argsortRelDesc df).map Prod.fst).Nodup := by
    have hdf : (df.map Prod.fst).Nodup :=
      List.pairwise_map.mpr (hidx.imp (fun h => Nat.ne_of_lt h))
    exact ((hpermD.map Prod.fst).nodup_iff).mpr hdf
  exact sorted_perm_eq _ _ (hpermD.trans hpermR.symm) hndlab
    (List.sorted_insertionSort argsortRelDesc df) hrevdesc

/-- C7 counterexample: twenty-one rows all tied on the combined estimate; both
modes keep the stable original order, so the descending and ascending head(10)
return the same first ten rows and the two rankings are not disjoint. -/
theorem c7_counterexample :
    20 < dfTie21.length ∧
    ¬ (∀ x ∈ top_10_waste dfTie21, x ∉ bottom_10_waste dfTie21) := by
  constructor
  · decide
  · decide

/-- C7 amended: on a cleaned dataset of more than 20 rows (row labels strictly
increasing, as every cleaned frame has), the top-10 attains the dataset's true
maximum combined estimate and the bottom-10 its true minimum; the two
rankings are disjoint provided additionally that no two records share a
combinedEstimate (a tie group straddling both heads makes them overlap, since
both modes keep tied rows in original order). -/
theorem c7_amended_disjoint_extremes (df : Frame)
    (hidx : df.Pairwise (fun a b => a.1 < b.1)) (hn : 20 < df.length) :
    ((df.map combinedOf).Nodup → ∀ x ∈ top_10_waste df, x ∉ bottom_10_waste df) ∧
    ((top_10_waste df).map combinedOf).maximum = (df.map combinedOf).maximum ∧
    ((bottom_10_waste df).map combinedOf).minimum = (df.map combinedOf).minimum := by
  have hpermA : (List.insertionSort argsortRel df).Perm df :=
    List.perm_insertionSort argsortRel df
  have hpermD : (List.insertionSort argsortRelDesc df).Perm df :=
    List.perm_insertionSort argsortRelDesc df
  have hlenA : (List.insertionSort argsortRel df).length = df.length := hpermA.length_eq
  have hlenD : (List.insertionSort argsortRelDesc df).length = df.length := hpermD.length_eq
  have hnodupdf : df.Nodup := by
    have h : df.Pairwise (fun a b => a ≠ b) := by
      refine hidx.imp ?_
      intro a b h he
      rw [he] at h
      exact lt_irrefl _ h
    exact h
  refine ⟨?_, ?_, ?_⟩
  · intro hdist x hx hx2
    have heq := sortDesc_eq_reverse_sortAsc df hidx hdist
    have hnodupA : (List.insertionSort argsortRel df).Nodup := hpermA.nodup_iff.mpr hnodupdf
    have hx1 : x ∈ (List.insertionSort argsortRel df).reverse.take 10 := by
      have h10 : (top_10_waste df : Frame)
          = (List.insertionSort argsortRel df).reverse.take 10 := by
        show (List.insertionSort argsortRelDesc df).take 10 = _
        rw [heq]
      rw [← h10]
      exact hx
    rw [List.take_reverse] at hx1
    have hx2d : x ∈ (List.insertionSort argsortRel df).drop
        ((List.insertionSort argsortRel df).length - 10) := List.mem_reverse.mp hx1
    have h3 : (List.insertionSort argsortRel df).drop
          ((List.insertionSort argsortRel df).length - 10)
        = ((List.insertionSort argsortRel df).drop 10).drop
          ((List.insertionSort argsortRel df).length - 20) := by
      rw [List.drop_drop]
      congr 1
      omega
    rw [h3] at hx2d
    have hxd : x ∈ (List.insertionSort argsortRel df).drop 10 := List.drop_subset _ _ hx2d
    have hxt : x ∈ (List.insertionSort argsortRel df).take 10 := hx2
    exact (List.disjoint_take_drop hnodupA (le_refl 10)) hxt hxd
  · obtain ⟨hd, tl, hcons⟩ : ∃ hd tl, List.insertionSort argsortRelDesc df = hd :: tl := by
      refine List.exists_cons_of_ne_nil ?_
      intro h
      rw [h] at hlenD
      simp only [List.length_nil] at hlenD
      omega
    have hdesc : (List.insertionSort argsortRelDesc df).Pairwise
        (fun a b => combinedOf b ≤ combinedOf a) := by
      refine (List.sorted_insertionSort argsortRelDesc df).imp ?_
      intro a b h
      rcases h with h | ⟨h, _⟩
      · exact le_of_lt h
      · exact le_of_eq h.symm
    rw [hcons] at hdesc
    have hmax_top : ((top_10_waste df).map combinedOf).maximum
        = (combinedOf hd : WithBot ℚ) := by
      rw [List.maximum_eq_coe_iff]
      constructor
      · have h10 : (top_10_waste df : Frame) = (hd :: tl).take 10 := by
          show (List.insertionSort argsortRelDesc df).take 10 = _
          rw [hcons]
        rw [h10, show (10 : Nat) = 9 + 1 from rfl, List.take_succ_cons]
        exact List.mem_map_of_mem _ (List.mem_cons_self _ _)
      · intro a ha
        obtain ⟨x, hx, rfl⟩ := List.mem_map.mp ha
        have hx1 : x ∈ (List.insertionSort argsortRelDesc df).take 10 := hx
        rw [hcons] at hx1
        have hx2 : x ∈ hd :: tl := List.take_subset _ _ hx1
        rcases List.mem_cons.mp hx2 with rfl | hx3
        · exact le_refl _
        · exact (List.pairwise_cons.mp hdesc).1 x hx3
    have hmax_df : (df.map combinedOf).maximum = (combinedOf hd : WithBot ℚ) := by
      rw [List.maximum_eq_coe_iff]
      constructor
      · have h1 : hd ∈ List.insertionSort argsortRelDesc df := by
          rw [hcons]
          exact List.mem_cons_self _ _
        exact List.mem_map_of_mem _ (hpermD.subset h1)
      · intro a ha
        obtain ⟨x, hx, rfl⟩ := List.mem_map.mp ha
        have hx1 : x ∈ List.insertionSort argsortRelDesc df := hpermD.mem_iff.mpr hx
        rw [hcons] at hx1
        rcases List.mem_cons.mp hx1 with rfl | hx3
        · exact le_refl _
        · exact (List.pairwise_cons.mp hdesc).1 x hx3
    rw [hmax_top, hmax_df]
  · obtain ⟨hd2, tl2, hcons2⟩ : ∃ hd2 tl2, List.insertionSort argsortRel df = hd2 :: tl2 := by
      refine List.exists_cons_of_ne_nil ?_
      intro h
      rw [h] at hlenA
      simp only [List.length_nil] at hlenA
      omega
    have hasc : (List.insertionSort argsortRel df).Pairwise
        (fun a b => combinedOf a ≤ combinedOf b) := by
      refine (List.sorted_insertionSort argsortRel df).imp ?_
      intro a b h
      rcases h with h | ⟨h, _⟩
      · exact le_of_lt h
      · exact le_of_eq h
    rw [hcons2] at hasc
    have hmin_bot : ((bottom_10_waste df).map combinedOf).minimum
        = (combinedOf hd2 : WithTop ℚ) := by
      rw [List.minimum_eq_coe_iff]
      constructor
      · have h10 : (bottom_10_waste df : Frame) = (hd2 :: tl2).take 10 := by
          show (List.insertionSort argsortRel df).take 10 = _
          rw [hcons2]
        rw [h10, show (10 : Nat) = 9 + 1 from rfl, List.take_succ_cons]
        exact List.mem_map_of_mem _ (List.mem_cons_self _ _)
      · intro a ha
        obtain ⟨x, hx, rfl⟩ := List.mem_map.mp ha
        have hx1 : x ∈ (List.insertionSort argsortRel df).take 10 := hx
        rw [hcons2] at hx1
        have hx2 : x ∈ hd2 :: tl2 := List.take_subset _ _ hx1
        rcases List.mem_cons.mp hx2 with rfl | hx3
        · exact le_refl _
        · exact (List.pairwise_cons.mp hasc).1 x hx3
    have hmin_df : (df.map combinedOf).minimum = (combinedOf hd2 : WithTop ℚ) := by
      rw [List.minimum_eq_coe_iff]
      constructor
      · have h1 : hd2 ∈ List.insertionSort argsortRel df := by
          rw [hcons2]
          exact List.mem_cons_self _ _
        exact List.mem_map_of_mem _ (hpermA.subset h1)
      · intro a ha
        obtain ⟨x, hx, rfl⟩ := List.mem_map.mp ha
        have hx1 : x ∈ List.insertionSort argsortRel df := hpermA.mem_iff.mpr hx
        rw [hcons2] at hx1
        rcases List.mem_cons.mp hx1 with rfl | hx3
        · exact le_refl _
        · exact (List.pairwise_cons.mp hasc).1 x hx3
    rw [hmin_bot, hmin_df]

/-- C7 witness: the amended statement evaluated on a 21-row cleaned frame with
pairwise distinct combined estimates, the distinctness antecedent
discharged. -/
theorem c7_amended_witness :
    (df21.Pairwise (fun a b => a.1 < b.1) ∧ 20 < df21.length ∧
     (df21.map combinedOf).Nodup) ∧
    ((∀ x ∈ top_10_waste df21, x ∉ bottom_10_waste df21) ∧
     ((top_10_waste df21).map combinedOf).maximum = (df21.map combinedOf).maximum ∧
     ((bottom_10_waste df21).map combinedOf).minimum = (df21.map combinedOf).minimum) := by
  have h := c7_amended_disjoint_extremes df21 (by decide) (by decide)
  exact ⟨⟨by decide, by decide, by decide⟩, h.1 (by decide), h.2.1, h.2.2⟩

/-- C8: the country-detail lookup selects by case-sensitive exact equality on
the country field and, when several rows share the name, returns the first
matching row in dataset order (no averaging or merging of duplicates). -/
theorem c8_lookup_first_match (df : Frame) (name : String)
    (hmem : ∃ p ∈ df, p.2.country = some name) :
    ∃ pre r suf, df = pre ++ r :: suf ∧ r.2.country = some name ∧
      (∀ q ∈ pre, q.2.country ≠ some name) ∧ country_data df name = some r := by
  induction df with
  | nil =>
      rcases hmem with ⟨p, hp, _⟩
      cases hp
  | cons a t ih =>
      by_cases ha : a.2.country = some name
      · refine ⟨[], a, t, rfl, ha, by simp, ?_⟩
        simp [country_data, ha]
      · have hmem2 : ∃ p ∈ t, p.2.country = some name := by
          rcases hmem with ⟨p, hp, hpc⟩
          rcases List.mem_cons.mp hp with rfl | hpt
          · exact absurd hpc ha
          · exact ⟨p, hpt, hpc⟩
        obtain ⟨pre, r, suf, heq, hr, hpre, hcd⟩ := ih hmem2
        refine ⟨a :: pre, r, suf, by rw [heq]; rfl, hr, ?_, ?_⟩
        · intro q hq
          rcases List.mem_cons.mp hq with rfl | hq2
          · exact ha
          · exact hpre q hq2
        · simpa [country_data, ha] using hcd

/-- C8 witness: two rows share the name France; the lookup returns the first
one in dataset order. -/
theorem c8_witness :
    (∃ p ∈ dfDup, p.2.country = some "France") ∧
    (∃ pre r suf, dfDup = pre ++ r :: suf ∧ r.2.country = some "France" ∧
      (∀ q ∈ pre, q.2.country ≠ some "France") ∧
      country_data dfDup "France" = some r) :=
  ⟨⟨(0, franceRow0), by decide, by decide⟩,
   c8_lookup_first_match dfDup "France" ⟨(0, franceRow0), by decide, by decide⟩⟩

/-- C6: the sector breakdown of the selected country contains only pairs whose
value is non-null, and when all three sector estimates are null the breakdown
is empty and the script renders the no-data warning instead of a pie chart. -/
theorem c6_sector_nonnull (df : Frame) (name : String) (p : Nat × Row)
    (hp : country_data df name = some p) :
    (∀ pr ∈ sector_df p.2, pr.2 ≠ none) ∧
    ((p.2.household = none ∧ p.2.retail = none ∧ p.2.foodService = none) →
      sector_df p.2 = [] ∧
      renderSector df name = some (SectorView.noDataWarning name)) := by
  constructor
  · intro pr hpr
    have h := (List.mem_filter.mp hpr).2
    simp only [Option.isSome_iff_ne_none] at h
    exact h
  · rintro ⟨h1, h2, h3⟩
    have hsd : sector_df p.2 = [] := by
      simp [sector_df, sectorPairs, h1, h2, h3]
    refine ⟨hsd, ?_⟩
    rw [renderSector, hp]
    simp [hsd]

/-- C6 witness: a country with all three sector estimates null yields the
empty breakdown and the warning view. -/
theorem c6_witness :
    country_data dfNoSector "N" = some (0, rowNoSector) ∧
    ((∀ pr ∈ sector_df rowNoSector, pr.2 ≠ none) ∧
     ((rowNoSector.household = none ∧ rowNoSector.retail = none ∧
       rowNoSector.foodService = none) →
       sector_df rowNoSector = [] ∧
       renderSector dfNoSector "N" = some (SectorView.noDataWarning "N"))) :=
  ⟨by decide, c6_sector_nonnull dfNoSector "N" (0, rowNoSector) (by decide)⟩

/-- The median per the spec of a one-element value list is that value. -/
theorem medianSpec_single (v : ℚ) : medianSpec [v] = v := by
  simp [medianSpec, sortedRats]

/-- When at least one value of the column is non-null, the imputation fills
every null cell with the median of exactly the non-null cells and keeps every
present cell. -/
theorem imputeCol_fill (xs : List (Option ℚ)) (h : xs.filterMap id ≠ []) :
    imputeCol xs = xs.map (fun c => some (c.getD (medianSpec (xs.filterMap id)))) := by
  have hlen : ¬((xs.filterMap id).length = 0) := by
    simpa [List.length_eq_zero] using h
  simp [imputeCol, seriesMedian, fillna, hlen]

/-- C3: for each of the three sector features independently (and provided the
feature has at least one non-null value, without which no median exists), the
clustering step replaces every missing value with the median of that feature
over exactly the countries whose value is non-null in the cleaned dataset —
this happens on `cluster_data`, i.e. before standardization, which
`scaled_data` applies only afterwards; in particular a feature with exactly
one non-null value imputes that value everywhere. -/
theorem c3_imputation (df : Frame)
    (hH : (colHousehold df).filterMap id ≠ [])
    (hR : (colRetail df).filterMap id ≠ [])
    (hF : (colFoodService df).filterMap id ≠ []) :
    ((imputedData df).1 = (colHousehold df).map
        (fun c => some (c.getD (medianSpec ((colHousehold df).filterMap id)))) ∧
     (imputedData df).2.1 = (colRetail df).map
        (fun c => some (c.getD (medianSpec ((colRetail df).filterMap id)))) ∧
     (imputedData df).2.2 = (colFoodService df).map
        (fun c => some (c.getD (medianSpec ((colFoodService df).filterMap id))))) ∧
    ((∀ v : ℚ, (colHousehold df).filterMap id = [v] →
        (imputedData df).1 = (colHousehold df).map (fun c => some (c.getD v))) ∧
     (∀ v : ℚ, (colRetail df).filterMap id = [v] →
        (imputedData df).2.1 = (colRetail df).map (fun c => some (c.getD v))) ∧
     (∀ v : ℚ, (colFoodService df).filterMap id = [v] →
        (imputedData df).2.2 = (colFoodService df).map (fun c => some (c.getD v)))) := by
  refine ⟨⟨imputeCol_fill _ hH, imputeCol_fill _ hR, imputeCol_fill _ hF⟩, ?_, ?_, ?_⟩
  · intro v hv
    have h := imputeCol_fill (colHousehold df) hH
    rw [hv, medianSpec_single] at h
    exact h
  · intro v hv
    have h := imputeCol_fill (colRetail df) hR
    rw [hv, medianSpec_single] at h
    exact h
  · intro v hv
    have h := imputeCol_fill (colFoodService df) hF
    rw [hv, medianSpec_single] at h
    exact h

/-- C3 witness: the worked example of the spec — country B has a null
household estimate and country A household 50, so B is imputed 50, the median
of the singleton non-null set. -/
theorem c3_witness :
    ((colHousehold dfAB).filterMap id ≠ [] ∧ (colRetail dfAB).filterMap id ≠ [] ∧
     (colFoodService dfAB).filterMap id ≠ []) ∧
    (((imputedData dfAB).1 = (colHousehold dfAB).map
        (fun c => some (c.getD (medianSpec ((colHousehold dfAB).filterMap id)))) ∧
      (imputedData dfAB).2.1 = (colRetail dfAB).map
        (fun c => some (c.getD (medianSpec ((colRetail dfAB).filterMap id)))) ∧
      (imputedData dfAB).2.2 = (colFoodService dfAB).map
        (fun c => some (c.getD (medianSpec ((colFoodService dfAB).filterMap id))))) ∧
     ((∀ v : ℚ, (colHousehold dfAB).filterMap id = [v] →
         (imputedData dfAB).1 = (colHousehold dfAB).map (fun c => some (c.getD v))) ∧
      (∀ v : ℚ, (colRetail dfAB).filterMap id = [v] →
         (imputedData dfAB).2.1 = (colRetail dfAB).map (fun c => some (c.getD v))) ∧
      (∀ v : ℚ, (colFoodService dfAB).filterMap id = [v] →
         (imputedData dfAB).2.2 = (colFoodService dfAB).map (fun c => some (c.getD v))))) :=
  ⟨⟨by decide, by decide, by decide⟩,
   c3_imputation dfAB (by decide) (by decide) (by decide)⟩

/-- Scan bound: starting from a best index below the running position, the
result index stays below position plus remaining length. -/
theorem nearestFrom_lt (p : Point) :
    ∀ (cs : List Point) (i : Nat) (acc : Nat × ℚ), acc.1 < i →
      (nearestFrom p cs i acc).1 < i + cs.length := by
  intro cs
  induction cs with
  | nil =>
      intro i acc h
      simpa [nearestFrom] using h
  | cons c rest ih =>
      intro i acc h
      simp only [nearestFrom]
      split
      · have h2 := ih (i + 1) (i, sqDist p c) (Nat.lt_succ_self i)
        simp only [List.length_cons]
        omega
      · have h2 := ih (i + 1) acc (Nat.lt_succ_of_lt h)
        simp only [List.length_cons]
        omega

/-- The nearest-centroid index is a valid position of the centroid list. -/
theorem nearest_lt (cents : List Point) (hne : cents ≠ []) (p : Point) :
    nearest cents p < cents.length := by
  match cents with
  | [] => exact absurd rfl hne
  | c :: rest =>
      have h := nearestFrom_lt p rest 1 (0, sqDist p c) Nat.one_pos
      simp only [nearest, List.length_cons]
      omega

/-- A Lloyd update keeps the number of centroids. -/
theorem length_updateCents (pts cents : List Point) :
    (updateCents pts cents).length = cents.length := by
  simp [updateCents]

/-- Lloyd iteration keeps the number of centroids. -/
theorem length_lloyd (pts : List Point) :
    ∀ (fuel : Nat) (cents : List Point), (lloyd pts fuel cents).length = cents.length := by
  intro fuel
  induction fuel with
  | zero => intro cents; rfl
  | succ n ih =>
      intro cents
      simp only [lloyd]
      split
      · rfl
      · rw [ih, length_updateCents]

/-- The seeded initialisation produces exactly k centroids. -/
theorem length_initCents (seed k : Nat) (pts : List Point) :
    (initCents seed k pts).length = k := by
  simp [initCents]

/-- One full run produces exactly k centroids. -/
theorem length_singleRun (seed k : Nat) (pts : List Point) :
    (singleRun seed k pts).length = k := by
  simp [singleRun, length_lloyd, length_initCents]

/-- Keeping the lowest-inertia run preserves the number of centroids when the
start and every candidate have k centroids. -/
theorem length_bestRun (pts : List Point) (k : Nat) :
    ∀ (runs : List (List Point)) (b : List Point), b.length = k →
      (∀ c ∈ runs, c.length = k) →
      (runs.foldl (fun b c => if inertia pts c < inertia pts b then c else b) b).length = k := by
  intro runs
  induction runs with
  | nil =>
      intro b hb _
      exact hb
  | cons c rest ih =>
      intro b hb hall
      simp only [List.foldl_cons]
      split
      · exact ih c (hall c (List.mem_cons_self _ _))
          (fun d hd => hall d (List.mem_cons_of_mem _ hd))
      · exact ih b hb (fun d hd => hall d (List.mem_cons_of_mem _ hd))

/-- The labelling has one label per point. -/
theorem kmeansLabels_length (k nInit seed : Nat) (pts : List Point) :
    (kmeansLabels k nInit seed pts).length = pts.length := by
  simp [kmeansLabels]

/-- Every label is a cluster id below k. -/
theorem kmeansLabels_lt (k nInit seed : Nat) (pts : List Point) (hk : 0 < k) :
    ∀ x ∈ kmeansLabels k nInit seed pts, x < k := by
  intro x hx
  simp only [kmeansLabels, List.mem_map] at hx
  obtain ⟨p, hp, rfl⟩ := hx
  have hall : ∀ c ∈ (List.range nInit).map (fun t => singleRun (seed + t) k pts),
      c.length = k := by
    intro c hc
    obtain ⟨t, _, rfl⟩ := List.mem_map.mp hc
    exact length_singleRun _ _ _
  have hlenB := length_bestRun pts k
    ((List.range nInit).map (fun t => singleRun (seed + t) k pts))
    (initCents seed k pts) (length_initCents seed k pts) hall
  have hne : ((List.range nInit).map (fun t => singleRun (seed + t) k pts)).foldl
      (fun b c => if inertia pts c < inertia pts b then c else b)
      (initCents seed k pts) ≠ [] := by
    intro h
    rw [h] at hlenB
    simp only [List.length_nil] at hlenB
    omega
  have hlt := nearest_lt _ hne p
  rw [hlenB] at hlt
  exact hlt

/-- Filling a column does not change its length. -/
theorem length_fillna (xs : List (Option ℚ)) (m : Option ℚ) :
    (fillna xs m).length = xs.length := by
  cases m <;> simp [fillna]

/-- Imputation does not change the column length. -/
theorem length_imputeCol (xs : List (Option ℚ)) :
    (imputeCol xs).length = xs.length :=
  length_fillna xs _

/-- Scaling does not change the column length. -/
theorem length_scaleColOpt (xs : List (Option ℚ)) :
    (scaleColOpt xs).length = xs.length := by
  simp [scaleColOpt]

/-- The scaled feature matrix has one point per cleaned row. -/
theorem length_scaled_data (df : Frame) : (scaled_data df).length = df.length := by
  simp [scaled_data, imputedData, colHousehold, colRetail, colFoodService,
    List.length_zip, length_scaleColOpt, length_imputeCol]

/-- Cells of an imputed column with at least one non-null value are all
non-null. -/
theorem imputeCol_all_isSome (xs : List (Option ℚ)) (h : xs.filterMap id ≠ []) :
    ∀ c ∈ imputeCol xs, c.isSome = true := by
  intro c hc
  rw [imputeCol_fill xs h] at hc
  obtain ⟨d, _, rfl⟩ := List.mem_map.mp hc
  rfl

/-- Scaling keeps non-null cells non-null. -/
theorem scaleColOpt_isSome (xs : List (Option ℚ)) (hall : ∀ c ∈ xs, c.isSome = true) :
    ∀ c ∈ scaleColOpt xs, c.isSome = true := by
  intro c hc
  simp only [scaleColOpt, List.mem_map] at hc
  obtain ⟨d, hd, rfl⟩ := hc
  have h := hall d hd
  cases d with
  | none => simp at h
  | some v => rfl

/-- When every cell is non-null the validation succeeds and the values pass
through. -/
theorem checkArray_some (pts : List PointOpt)
    (hall : ∀ p ∈ pts, p.1.isSome = true ∧ p.2.1.isSome = true ∧ p.2.2.isSome = true) :
    checkArray pts = some (pts.map (fun p => (p.1.getD 0, p.2.1.getD 0, p.2.2.getD 0))) := by
  have hb : pts.all (fun p => p.1.isSome && p.2.1.isSome && p.2.2.isSome) = true := by
    rw [List.all_eq_true]
    intro p hp
    obtain ⟨h1, h2, h3⟩ := hall p hp
    simp [h1, h2, h3]
  unfold checkArray
  rw [if_pos hb]

/-- When every sector feature has at least one non-null value, every scaled
point is fully non-null. -/
theorem scaled_data_all_isSome (df : Frame)
    (hH : (colHousehold df).filterMap id ≠ [])
    (hR : (colRetail df).filterMap id ≠ [])
    (hF : (colFoodService df).filterMap id ≠ []) :
    ∀ p ∈ scaled_data df, p.1.isSome = true ∧ p.2.1.isSome = true ∧ p.2.2.isSome = true := by
  intro p hp
  obtain ⟨a, bc⟩ := p
  simp only [scaled_data, imputedData] at hp
  have h1 := (List.of_mem_zip hp).1
  have h2 := (List.of_mem_zip hp).2
  obtain ⟨b, c⟩ := bc
  have h21 := (List.of_mem_zip h2).1
  have h22 := (List.of_mem_zip h2).2
  exact ⟨scaleColOpt_isSome _ (imputeCol_all_isSome _ hH) a h1,
    scaleColOpt_isSome _ (imputeCol_all_isSome _ hR) b h21,
    scaleColOpt_isSome _ (imputeCol_all_isSome _ hF) c h22⟩

/-- A member of a duplicate-free list is counted exactly once. -/
theorem count_eq_one_of_mem_beq {α} [BEq α] [LawfulBEq α] {a : α} {l : List α}
    (d : l.Nodup) (h : a ∈ l) : l.count a = 1 := by
  induction l with
  | nil => cases h
  | cons x t ih =>
      obtain ⟨hx, hd⟩ := List.nodup_cons.mp d
      rcases List.mem_cons.mp h with rfl | ht
      · have h0 : t.count a = 0 := List.count_eq_zero.mpr hx
        simp [List.count_cons, h0]
      · have h1 : t.count a = 1 := ih hd ht
        have hne : x ≠ a := by
          rintro rfl
          exact hx ht
        simp [List.count_cons, h1, Ne.symm hne]

/-- C9: on a cleaned dataset with at least k = 3 rows, pairwise distinct
country names, and every sector feature having at least one non-null value
(so that the fitted matrix contains no NaN and the fit does not raise), the
clustering output pairs every country with exactly one cluster id, each id
lying in [0, 3), and every country appears exactly once as a key of the
resulting mapping. -/
theorem c9_assignment_shape (entropy : Nat) (df : Frame) (hk : 3 ≤ df.length)
    (hnd : (df.map (fun p => p.2.country)).Nodup)
    (hH : (colHousehold df).filterMap id ≠ [])
    (hR : (colRetail df).filterMap id ≠ [])
    (hF : (colFoodService df).filterMap id ≠ []) :
    ∃ asg, clusterAssignment entropy df = some asg ∧
      asg.map Prod.fst = df.map (fun p => p.2.country) ∧
      (∀ pr ∈ asg, pr.2 < 3) ∧
      (∀ c ∈ df.map (fun p => p.2.country), (asg.map Prod.fst).count c = 1) := by
  have hchk := checkArray_some (scaled_data df) (scaled_data_all_isSome df hH hR hF)
  have hlabels : clusterLabels entropy df = some (kmeansLabels 3 10 42
      ((scaled_data df).map (fun p => (p.1.getD 0, p.2.1.getD 0, p.2.2.getD 0)))) := by
    unfold clusterLabels kmeansFit
    rw [hchk]
    rfl
  have hlenpts : ((scaled_data df).map
      (fun p => (p.1.getD 0, p.2.1.getD 0, p.2.2.getD 0))).length = df.length := by
    rw [List.length_map, length_scaled_data]
  have hle : (df.map (fun p => p.2.country)).length ≤ (kmeansLabels 3 10 42
      ((scaled_data df).map (fun p => (p.1.getD 0, p.2.1.getD 0, p.2.2.getD 0)))).length := by
    rw [kmeansLabels_length, hlenpts, List.length_map]
  refine ⟨(df.map (fun p => p.2.country)).zip (kmeansLabels 3 10 42 ((scaled_data df).map (fun p => (p.1.getD 0, p.2.1.getD 0, p.2.2.getD 0)))), ?_, ?_, ?_, ?_⟩
  · unfold clusterAssignment
    rw [hlabels]
    rfl
  · exact List.map_fst_zip _ _ hle
  · intro pr hpr
    obtain ⟨a, b⟩ := pr
    have h2 : b ∈ kmeansLabels 3 10 42 ((scaled_data df).map (fun p => (p.1.getD 0, p.2.1.getD 0, p.2.2.getD 0))) := (List.of_mem_zip hpr).2
    exact kmeansLabels_lt 3 10 42 _ (by norm_num) b h2
  · intro c hc
    rw [List.map_fst_zip _ _ hle]
    exact count_eq_one_of_mem_beq hnd hc

/-- C9 witness: the statement evaluated on a three-row frame with distinct
country names and every sector feature present somewhere. -/
theorem c9_witness :
    (3 ≤ df3.length ∧ (df3.map (fun p => p.2.country)).Nodup ∧
     (colHousehold df3).filterMap id ≠ [] ∧ (colRetail df3).filterMap id ≠ [] ∧
     (colFoodService df3).filterMap id ≠ []) ∧
    (∃ asg, clusterAssignment 0 df3 = some asg ∧
      asg.map Prod.fst = df3.map (fun p => p.2.country) ∧
      (∀ pr ∈ asg, pr.2 < 3) ∧
      (∀ c ∈ df3.map (fun p => p.2.country), (asg.map Prod.fst).count c = 1)) :=
  ⟨⟨by decide, by decide, by decide, by decide, by decide⟩,
   c9_assignment_shape 0 df3 (by decide) (by decide) (by decide) (by decide) (by decide)⟩

end FoodWaste
